import Mathlib

/-!
Verification development for the chat-orchestration backend
(`agents.py`, `blob_storage_service.py`).

The Python code is shallowly embedded:

* dynamically-typed Python/JSON values become the inductive `PyValue`;
* Python `dict`s become association lists in insertion order, with
  `assocGet` / `assocSet` / `assocSetdefault` mirroring `d[k]`, `d[k] = v`
  and `d.setdefault(k, v)`;
* the specific `re` patterns used by the code are implemented as dedicated
  deterministic scanners with Python's leftmost / lazy / greedy semantics;
* `json.loads` is a real executable parser (numeric literals are modelled
  as integers only; the claims never involve floats);
* the session manager is a pure state machine over `AgentState`, with the
  Azure blob container modelled as an association list from blob name to
  stored document, and `datetime.now()` modelled as a logical clock;
* transcript roles follow the chat-history library's `(str, Enum)`
  `AuthorRole`: `str()` of a member renders with the enum class name
  (`AuthorRole.SYSTEM`), while `.value` is the lowercase role name.

Every definition is written to be executable by the kernel (structural or
fuel-based recursion, no well-founded recursion), so closed claims can be
settled by `rfl` / `decide`.
-/

/-- A Python/JSON value as it flows through the response normalizer:
`None`, `bool`, `int`, `str`, `list`, `dict` (insertion-ordered). -/
inductive PyValue where
  | null : PyValue
  | bool : Bool → PyValue
  | int : Int → PyValue
  | str : String → PyValue
  | list : List PyValue → PyValue
  | dict : List (String × PyValue) → PyValue

mutual

/-- Structural size of a value (used as termination fuel; the derived
`SizeOf` instance is not executable for nested inductives). -/
def pySize : PyValue → Nat
  | PyValue.null => 1
  | PyValue.bool _ => 1
  | PyValue.int _ => 1
  | PyValue.str _ => 1
  | PyValue.list xs => 1 + pySizeList xs
  | PyValue.dict fs => 1 + pySizeFields fs

def pySizeList : List PyValue → Nat
  | [] => 0
  | x :: xs => pySize x + pySizeList xs

def pySizeFields : List (String × PyValue) → Nat
  | [] => 0
  | (_, v) :: fs => pySize v + pySizeFields fs

end

/-- Lookup in a Python dict (first — and only, since Python keys are
unique — binding wins), i.e. `d.get(k)` / `k in d`. -/
def assocGet {α : Type} : List (String × α) → String → Option α
  | [], _ => Option.none
  | (k', v') :: rest, k => if k' = k then Option.some v' else assocGet rest k

/-- `d[k] = v`: replace in place if the key exists, else append (Python
dicts keep insertion order, and re-assignment keeps the original slot). -/
def assocSet {α : Type} : List (String × α) → String → α → List (String × α)
  | [], k, v => [(k, v)]
  | (k', v') :: rest, k, v =>
    if k' = k then (k, v) :: rest else (k', v') :: assocSet rest k v

/-- `d.setdefault(k, dflt)` viewed as the dict after the call. -/
def assocSetdefault {α : Type} (l : List (String × α)) (k : String) (d : α) :
    List (String × α) :=
  match assocGet l k with
  | Option.some _ => l
  | Option.none => l ++ [(k, d)]

/-- The opening curly brace character. -/
def lbrace : Char := Char.ofNat 123

/-- The closing curly brace character. -/
def rbrace : Char := Char.ofNat 125

/-- The backtick character of markdown code fences. -/
def backquote : Char := Char.ofNat 96

/-- Python `\s` (ASCII fragment): space, tab, newline, carriage return,
form feed, vertical tab. -/
def pyIsSpace (c : Char) : Bool :=
  c = ' ' || c = '\t' || c = '\n' || c = '\r' || c = Char.ofNat 12 || c = Char.ofNat 11

def dropSpacesL (s : List Char) : List Char := s.dropWhile pyIsSpace

/-- `str.lower()` (ASCII case folding, which covers every string the code
compares). -/
def pyLower (s : String) : String := String.mk (s.toList.map Char.toLower)

def listDrop {α : Type} (n : Nat) (l : List α) : List α := l.drop n

def listTakeWhile {α : Type} (p : α → Bool) (l : List α) : List α := l.takeWhile p

/-- Does `s` start with the literal `pat` (case-sensitive)? -/
def listStartsWith : List Char → List Char → Bool
  | [], _ => true
  | _ :: _, [] => false
  | p :: ps, c :: cs => p = c && listStartsWith ps cs

/-- Does `s` start with the (pre-lowercased) literal `pat`, comparing
case-insensitively? -/
def ciStartsWith : List Char → List Char → Bool
  | [], _ => true
  | _ :: _, [] => false
  | p :: ps, c :: cs => p = c.toLower && ciStartsWith ps cs

/-- Substring occurrence, case-sensitive (Python `needle in hay`). -/
def listInfixOf (pat : List Char) : List Char → Bool
  | [] => listStartsWith pat []
  | c :: rest => listStartsWith pat (c :: rest) || listInfixOf pat rest

/-- Substring occurrence with a pre-lowercased pattern (re.IGNORECASE). -/
def ciInfixOf (pat : List Char) : List Char → Bool
  | [] => ciStartsWith pat []
  | c :: rest => ciStartsWith pat (c :: rest) || ciInfixOf pat rest

/-- Index of the first case-insensitive occurrence of the pre-lowercased
literal `pat` in `s`. -/
def ciFindIdx (pat : List Char) : List Char → Option Nat
  | [] => if ciStartsWith pat [] then Option.some 0 else Option.none
  | c :: rest =>
    if ciStartsWith pat (c :: rest) then Option.some 0
    else (ciFindIdx pat rest).map (fun n => n + 1)

/-- Index of the first occurrence of the character `t`. -/
def findIdxChar (t : Char) : List Char → Option Nat
  | [] => Option.none
  | c :: rest =>
    if c = t then Option.some 0 else (findIdxChar t rest).map (fun n => n + 1)

/-- Python `needle in hay` on strings. -/
def strContainsSub (hay needle : String) : Bool :=
  listInfixOf needle.toList hay.toList

/-- `str.strip()` (whitespace strip on both ends). -/
def pyStrip (s : String) : String :=
  String.mk (((s.toList.dropWhile pyIsSpace).reverse.dropWhile pyIsSpace).reverse)

/-- One pass of `str.replace(pat, rep)` over the remaining input,
left-to-right and non-overlapping; `fuel` only guarantees termination and
is instantiated with the input length. -/
def replaceLGo (pat rep : List Char) : Nat → List Char → List Char
  | _, [] => []
  | 0, s => s
  | fuel + 1, c :: rest =>
    if pat ≠ [] && listStartsWith pat (c :: rest) then
      rep ++ replaceLGo pat rep fuel (listDrop (pat.length - 1) rest)
    else
      c :: replaceLGo pat rep fuel rest

/-- Python `s.replace(pat, rep)` (total replacement, nonempty pattern). -/
def pyReplace (s pat rep : String) : String :=
  String.mk (replaceLGo pat.toList rep.toList s.length s.toList)

/-- Splitter for Python `s.split(sep)` with a nonempty separator. -/
def splitLGo (sep : List Char) : Nat → List Char → List Char → List (List Char)
  | 0, acc, s => [acc.reverse ++ s]
  | _ + 1, acc, [] => [acc.reverse]
  | fuel + 1, acc, c :: rest =>
    if listStartsWith sep (c :: rest) then
      acc.reverse :: splitLGo sep fuel [] (listDrop (sep.length - 1) rest)
    else
      splitLGo sep fuel (c :: acc) rest

/-- Python `s.split(sep)` for a nonempty separator (never returns `[]`). -/
def pySplit (s sep : String) : List String :=
  (splitLGo sep.toList (s.length + 1) [] s.toList).map String.mk

/-- `sep.join(parts)`. -/
def pyJoin (sep : String) : List String → String
  | [] => ""
  | [x] => x
  | x :: xs => x ++ sep ++ pyJoin sep xs

/-- Digits to the natural number they denote. -/
def digitsToNat (ds : List Char) : Nat :=
  ds.foldl (fun n c => n * 10 + (c.toNat - 48)) 0

def hexVal (c : Char) : Option Nat :=
  if '0' ≤ c && c ≤ '9' then Option.some (c.toNat - 48)
  else if 'a' ≤ c && c ≤ 'f' then Option.some (c.toNat - 87)
  else if 'A' ≤ c && c ≤ 'F' then Option.some (c.toNat - 55)
  else Option.none

/-- JSON whitespace accepted by `json.loads` between tokens. -/
def skipWsJ (s : List Char) : List Char :=
  s.dropWhile (fun c => c = ' ' || c = '\t' || c = '\n' || c = '\r')

/-- JSON string body scanner for `json.loads` (after the opening quote):
handles the standard escapes; raw control characters are rejected as in
Python's default strict mode.  `\u` escapes are mapped through
`Char.ofNat` (surrogate pairing is not modelled; no claim exercises it). -/
def parseStrGo : Nat → List Char → List Char → Option (String × List Char)
  | 0, _, _ => Option.none
  | fuel + 1, acc, s =>
    match s with
    | [] => Option.none
    | c :: rest =>
      if c = '"' then Option.some (String.mk acc.reverse, rest)
      else if c = '\\' then
        match rest with
        | [] => Option.none
        | e :: r2 =>
          if e = '"' then parseStrGo fuel ('"' :: acc) r2
          else if e = '\\' then parseStrGo fuel ('\\' :: acc) r2
          else if e = '/' then parseStrGo fuel ('/' :: acc) r2
          else if e = 'b' then parseStrGo fuel (Char.ofNat 8 :: acc) r2
          else if e = 'f' then parseStrGo fuel (Char.ofNat 12 :: acc) r2
          else if e = 'n' then parseStrGo fuel ('\n' :: acc) r2
          else if e = 'r' then parseStrGo fuel ('\r' :: acc) r2
          else if e = 't' then parseStrGo fuel ('\t' :: acc) r2
          else if e = 'u' then
            match r2 with
            | h1 :: h2 :: h3 :: h4 :: r3 =>
              match hexVal h1, hexVal h2, hexVal h3, hexVal h4 with
              | Option.some a, Option.some b, Option.some c2, Option.some d =>
                parseStrGo fuel (Char.ofNat (((a * 16 + b) * 16 + c2) * 16 + d) :: acc) r3
              | _, _, _, _ => Option.none
            | _ => Option.none
          else Option.none
      else if c.toNat < 32 then Option.none
      else parseStrGo fuel (c :: acc) rest

/-- Parser modes for the single fueled `json.loads` recursion: a value, the
members of an object, or the elements of an array.  `first` tells whether a
closing bracket may come immediately (no trailing commas in JSON). -/
inductive PMode where
  | value : PMode
  | members : Bool → List (String × PyValue) → PMode
  | elems : Bool → List PyValue → PMode

/-- The recursive core of `json.loads`.  A single fueled function (rather
than a mutual block) so that it compiles to structural recursion and the
kernel can evaluate it.  Numeric literals with a fraction or exponent are
rejected (floats are outside the model; no claim involves them). -/
def parseGo : Nat → PMode → List Char → Option (PyValue × List Char)
  | 0, _, _ => Option.none
  | fuel + 1, PMode.value, s =>
    match skipWsJ s with
    | [] => Option.none
    | c :: rest =>
      if c = lbrace then parseGo fuel (PMode.members true []) rest
      else if c = '[' then parseGo fuel (PMode.elems true []) rest
      else if c = '"' then
        match parseStrGo (rest.length + 1) [] rest with
        | Option.some (s2, r2) => Option.some (PyValue.str s2, r2)
        | Option.none => Option.none
      else if c = 't' then
        if listStartsWith ['r', 'u', 'e'] rest then
          Option.some (PyValue.bool true, listDrop 3 rest)
        else Option.none
      else if c = 'f' then
        if listStartsWith ['a', 'l', 's', 'e'] rest then
          Option.some (PyValue.bool false, listDrop 4 rest)
        else Option.none
      else if c = 'n' then
        if listStartsWith ['u', 'l', 'l'] rest then
          Option.some (PyValue.null, listDrop 3 rest)
        else Option.none
      else if c = '-' || c.isDigit then
        let body := if c = '-' then rest else c :: rest
        let ds := listTakeWhile Char.isDigit body
        if ds.isEmpty then Option.none
        else
          let after := listDrop ds.length body
          match after with
          | a :: _ =>
            if a = '.' || a = 'e' || a = 'E' then Option.none
            else
              Option.some
                (PyValue.int (if c = '-' then -(digitsToNat ds : Int) else (digitsToNat ds : Int)),
                  after)
          | [] =>
            Option.some
              (PyValue.int (if c = '-' then -(digitsToNat ds : Int) else (digitsToNat ds : Int)),
                after)
      else Option.none
  | fuel + 1, PMode.members first acc, s =>
    match skipWsJ s with
    | [] => Option.none
    | c :: rest =>
      if c = rbrace && first then Option.some (PyValue.dict acc, rest)
      else if c = '"' then
        match parseStrGo (rest.length + 1) [] rest with
        | Option.some (key, r2) =>
          (match skipWsJ r2 with
          | ':' :: r3 =>
            (match parseGo fuel PMode.value r3 with
            | Option.some (v, r4) =>
              (match skipWsJ r4 with
              | ',' :: r5 => parseGo fuel (PMode.members false (assocSet acc key v)) r5
              | c2 :: r5 =>
                if c2 = rbrace then Option.some (PyValue.dict (assocSet acc key v), r5)
                else Option.none
              | [] => Option.none)
            | Option.none => Option.none)
          | _ => Option.none)
        | Option.none => Option.none
      else Option.none
  | fuel + 1, PMode.elems first acc, s =>
    match skipWsJ s with
    | [] => Option.none
    | c :: rest =>
      if c = ']' && first then Option.some (PyValue.list acc.reverse, rest)
      else
        match parseGo fuel PMode.value (c :: rest) with
        | Option.some (v, r2) =>
          (match skipWsJ r2 with
          | ',' :: r3 => parseGo fuel (PMode.elems false (v :: acc)) r3
          | ']' :: r3 => Option.some (PyValue.list (v :: acc).reverse, r3)
          | _ => Option.none)
        | Option.none => Option.none

/-- `json.loads`: parse one JSON document and reject trailing garbage. -/
def jsonLoads (s : String) : Option PyValue :=
  match parseGo (4 * s.length + 16) PMode.value s.toList with
  | Option.some (v, rest) => if (skipWsJ rest).isEmpty then Option.some v else Option.none
  | Option.none => Option.none

/-- Hex digit for escape rendering. -/
def hexDigit (n : Nat) : Char :=
  if n < 10 then Char.ofNat (48 + n) else Char.ofNat (87 + (n % 6))

/-- Escape one character for a JSON string literal with `ensure_ascii=True`
(the default used by `json.dumps(item, indent=2)` in the normalizer);
characters beyond the BMP are not modelled (no claim exercises them). -/
def jsonEscapeChar (c : Char) : List Char :=
  if c = '"' then ['\\', '"']
  else if c = '\\' then ['\\', '\\']
  else if c = '\n' then ['\\', 'n']
  else if c = '\r' then ['\\', 'r']
  else if c = '\t' then ['\\', 't']
  else if c = Char.ofNat 8 then ['\\', 'b']
  else if c = Char.ofNat 12 then ['\\', 'f']
  else if c.toNat < 32 || c.toNat > 126 then
    ['\\', 'u', hexDigit ((c.toNat / 4096) % 16), hexDigit ((c.toNat / 256) % 16),
      hexDigit ((c.toNat / 16) % 16), hexDigit (c.toNat % 16)]
  else [c]

/-- A JSON string literal for `s`. -/
def jsonQuote (s : String) : String :=
  String.mk ('"' :: (s.toList.flatMap jsonEscapeChar) ++ ['"'])

def indentSpaces (n : Nat) : String := String.mk (List.replicate n ' ')

/-- `json.dumps(v, indent=2)` (ensure_ascii default).  Fueled by the
structural size of the value so it compiles to structural recursion;
`ind` is the current indentation width. -/
def dumpsGo : Nat → PyValue → Nat → String
  | 0, _, _ => ""
  | _ + 1, PyValue.null, _ => "null"
  | _ + 1, PyValue.bool b, _ => if b then "true" else "false"
  | _ + 1, PyValue.int i, _ => toString i
  | _ + 1, PyValue.str s, _ => jsonQuote s
  | fuel + 1, PyValue.list xs, ind =>
    match xs with
    | [] => "[]"
    | _ =>
      "[\n" ++
        pyJoin ",\n" (xs.map (fun x => indentSpaces (ind + 2) ++ dumpsGo fuel x (ind + 2))) ++
        "\n" ++ indentSpaces ind ++ "]"
  | fuel + 1, PyValue.dict fs, ind =>
    match fs with
    | [] => "\x7b\x7d"
    | _ =>
      "\x7b\n" ++
        pyJoin ",\n" (fs.map (fun p =>
          indentSpaces (ind + 2) ++ jsonQuote p.fst ++ ": " ++ dumpsGo fuel p.snd (ind + 2))) ++
        "\n" ++ indentSpaces ind ++ "\x7d"

/-- `json.dumps(v, indent=2)`. -/
def jsonDumps (v : PyValue) : String := dumpsGo (pySize v + 1) v 0

/-- Python `repr` of a string: single quotes, switching to double quotes
when the text contains a single quote but no double quote; standard
escapes (`\xHH` for other control characters). -/
def pyStrRepr (s : String) : String :=
  let cs := s.toList
  let useDouble := cs.contains '\'' && !(cs.contains '"')
  let q : Char := if useDouble then '"' else '\''
  let esc : Char → List Char := fun c =>
    if c = '\\' then ['\\', '\\']
    else if c = q then ['\\', q]
    else if c = '\n' then ['\\', 'n']
    else if c = '\r' then ['\\', 'r']
    else if c = '\t' then ['\\', 't']
    else if c.toNat < 32 then ['\\', 'x', hexDigit ((c.toNat / 16) % 16), hexDigit (c.toNat % 16)]
    else [c]
  String.mk (q :: (cs.flatMap esc) ++ [q])

/-- Python `repr(v)` (used by `str` on containers). -/
def pyReprGo : Nat → PyValue → String
  | 0, _ => ""
  | _ + 1, PyValue.null => "None"
  | _ + 1, PyValue.bool b => if b then "True" else "False"
  | _ + 1, PyValue.int i => toString i
  | _ + 1, PyValue.str s => pyStrRepr s
  | fuel + 1, PyValue.list xs =>
    "[" ++ pyJoin ", " (xs.map (pyReprGo fuel)) ++ "]"
  | fuel + 1, PyValue.dict fs =>
    "\x7b" ++ pyJoin ", " (fs.map (fun p => pyStrRepr p.fst ++ ": " ++ pyReprGo fuel p.snd)) ++ "\x7d"

/-- Python `str(v)`: identity on strings, `repr` otherwise. -/
def pyStr (v : PyValue) : String :=
  match v with
  | PyValue.str s => s
  | _ => pyReprGo (pySize v + 1) v

/-- One rendered item of the list branch of `_ensure_string_content`:
a dict prefers its `content` field via `str(...)`, else is pretty-printed;
a string passes through; anything else goes through `str(...)`. -/
def listItemStr (item : PyValue) : String :=
  match item with
  | PyValue.dict fs =>
    (match assocGet fs "content" with
    | Option.some cv => pyStr cv
    | Option.none => jsonDumps item)
  | PyValue.str s => s
  | other => pyStr other

/-- `AgentService._ensure_string_content` (agents.py:499-536): convert any
reply value to a string.  `None` becomes a fixed placeholder; a list joins
its rendered items with newlines; a dict recurses into its `content` field
or is pretty-printed; anything else is `str(...)`-converted.  The fuel is
the structural size of the value, which strictly bounds the depth of the
`content`-field recursion, so the zero-fuel default is unreachable.
(The Python `try/except` around this body can only fire on exotic
reflection failures and is not representable for these value shapes.) -/
def ensureStringGo : Nat → PyValue → String
  | 0, _ => ""
  | fuel + 1, v =>
    match v with
    | PyValue.null => "No response received"
    | PyValue.str s => s
    | PyValue.list xs => pyJoin "\n" (xs.map listItemStr)
    | PyValue.dict fields =>
      (match assocGet fields "content" with
      | Option.some cv => ensureStringGo fuel cv
      | Option.none => jsonDumps (PyValue.dict fields))
    | other => pyStr other

def _ensure_string_content (v : PyValue) : String :=
  ensureStringGo (pySize v + 1) v

def fence3 : List Char := [backquote, backquote, backquote]

def fenceJsonL : List Char := fence3 ++ ['j', 's', 'o', 'n']

/-- The literal `"content"` (with quotes) as it appears in the third
extraction pattern, pre-lowercased. -/
def contentKeyL : List Char := '"' :: ("content".toList ++ ['"'])

/-- The literal `"metadata"` (with quotes) of the fourth pattern. -/
def metadataKeyL : List Char := '"' :: ("metadata".toList ++ ['"'])

/-- The lazy `\{.*?\}` tail of the fenced patterns: consume characters
(DOTALL) until the first closing brace that is followed by optional
whitespace and a closing triple-backtick fence. -/
def fenceTail (acc : List Char) : List Char → Option (List Char)
  | [] => Option.none
  | c :: rest =>
    if c = rbrace && listStartsWith fence3 (dropSpacesL rest) then
      Option.some (acc ++ [rbrace])
    else fenceTail (acc ++ [c]) rest

/-- `re.search` of the first extraction pattern (a fenced block labelled
json containing an object), returning the object group. -/
def searchP1 : List Char → Option (List Char)
  | [] => Option.none
  | c :: rest =>
    if ciStartsWith fenceJsonL (c :: rest) then
      match dropSpacesL (listDrop fenceJsonL.length (c :: rest)) with
      | b :: body =>
        if b = lbrace then
          match fenceTail [lbrace] body with
          | Option.some g => Option.some g
          | Option.none => searchP1 rest
        else searchP1 rest
      | [] => searchP1 rest
    else searchP1 rest

/-- `re.search` of the second pattern (any fenced block containing an
object). -/
def searchP2 : List Char → Option (List Char)
  | [] => Option.none
  | c :: rest =>
    if ciStartsWith fence3 (c :: rest) then
      match dropSpacesL (listDrop fence3.length (c :: rest)) with
      | b :: body =>
        if b = lbrace then
          match fenceTail [lbrace] body with
          | Option.some g => Option.some g
          | Option.none => searchP2 rest
        else searchP2 rest
      | [] => searchP2 rest
    else searchP2 rest

def headIsRBrace : List Char → Bool
  | c :: _ => c = rbrace
  | [] => false

/-- `re.search` of the third pattern: a brace-free object body containing
the literal `"content"`. -/
def searchP3 : List Char → Option (List Char)
  | [] => Option.none
  | c :: rest =>
    if c = lbrace then
      let run := listTakeWhile (fun x => x != lbrace && x != rbrace) rest
      let after := listDrop run.length rest
      if ciInfixOf contentKeyL run && headIsRBrace after then
        Option.some (lbrace :: (run ++ [rbrace]))
      else searchP3 rest
    else searchP3 rest

/-- `re.search` of the fourth pattern: lazily from an opening brace to the
first `"metadata"`, then to the first closing brace after it. -/
def searchP4 : List Char → Option (List Char)
  | [] => Option.none
  | c :: rest =>
    if c = lbrace then
      match ciFindIdx metadataKeyL rest with
      | Option.some j =>
        (match findIdxChar rbrace (listDrop (j + metadataKeyL.length) rest) with
        | Option.some k =>
          Option.some (lbrace :: rest.take (j + metadataKeyL.length + k + 1))
        | Option.none => searchP4 rest)
      | Option.none => searchP4 rest
    else searchP4 rest

/-- Run one extraction pattern: the strategy succeeds only when the match
group parses as a JSON object (parse failures and non-dict results fall
through to the next strategy, as in the `try/continue` loop). -/
def tryPattern (search : List Char → Option (List Char)) (cs : List Char) :
    Option (List (String × PyValue)) :=
  match search cs with
  | Option.some g =>
    (match jsonLoads (String.mk g) with
    | Option.some (PyValue.dict d) => Option.some d
    | _ => Option.none)
  | Option.none => Option.none

def startsWithLBrace (s : String) : Bool := listStartsWith [lbrace] s.toList

def endsWithRBrace (s : String) : Bool := listStartsWith [rbrace] s.toList.reverse

/-- First substitution of strategy 3:
`re.sub(r'```json\s*|\s*```', '', content)` (case-sensitive). -/
def sub1Go : Nat → List Char → List Char
  | _, [] => []
  | 0, s => s
  | fuel + 1, c :: rest =>
    if listStartsWith fenceJsonL (c :: rest) then
      sub1Go fuel (dropSpacesL (listDrop fenceJsonL.length (c :: rest)))
    else if listStartsWith fence3 (dropSpacesL (c :: rest)) then
      sub1Go fuel (listDrop fence3.length (dropSpacesL (c :: rest)))
    else c :: sub1Go fuel rest

/-- Does `\s*```\s*$` match at this position (the trailing-fence
alternative of the second substitution)? -/
def fenceToEndAt (s : List Char) : Bool :=
  let t := dropSpacesL s
  listStartsWith fence3 t && (listDrop fence3.length t).all pyIsSpace

def removeTrailingFenceGo : List Char → List Char
  | [] => []
  | c :: rest => if fenceToEndAt (c :: rest) then [] else c :: removeTrailingFenceGo rest

/-- Second substitution of strategy 3:
`re.sub(r'^\s*```\s*|\s*```\s*$', '', s)` (no MULTILINE, so the anchors
bind to the whole string). -/
def sub2 (s : List Char) : List Char :=
  let s1 :=
    if listStartsWith fence3 (dropSpacesL s) then
      dropSpacesL (listDrop fence3.length (dropSpacesL s))
    else s
  removeTrailingFenceGo s1

/-- `AgentService._try_parse_json` (agents.py:538-583): the ordered JSON
extraction strategies — four regex patterns, then whole-string parsing
when the trimmed text is brace-delimited, then fence stripping and one
retry.  Returns the parsed object of the first strategy that yields a
dict. -/
def _try_parse_json (content : String) : Option (List (String × PyValue)) :=
  let cs := content.toList
  match tryPattern searchP1 cs with
  | Option.some d => Option.some d
  | Option.none =>
  match tryPattern searchP2 cs with
  | Option.some d => Option.some d
  | Option.none =>
  match tryPattern searchP3 cs with
  | Option.some d => Option.some d
  | Option.none =>
  match tryPattern searchP4 cs with
  | Option.some d => Option.some d
  | Option.none =>
  let stripped := pyStrip content
  let whole :=
    if startsWithLBrace stripped && endsWithRBrace stripped then
      match jsonLoads content with
      | Option.some (PyValue.dict d) => Option.some d
      | _ => Option.none
    else Option.none
  match whole with
  | Option.some d => Option.some d
  | Option.none =>
  let fixed := String.mk (sub2 (sub1Go cs.length cs))
  let strippedF := pyStrip fixed
  if startsWithLBrace strippedF && endsWithRBrace strippedF then
    match jsonLoads fixed with
    | Option.some (PyValue.dict d) => Option.some d
    | _ => Option.none
  else Option.none

/-- `AgentService._validate_and_normalize_json` (agents.py:585-614):
guarantee a string `content` field (falling back to the full stringified
reply) and a `metadata` dict carrying `false` defaults for each of the
five fixed keys not already present.  (The `try/except` wrapper cannot
fire for these value shapes and is not modelled.) -/
def _validate_and_normalize_json (parsed_json : List (String × PyValue))
    (fallback_content : String) : List (String × PyValue) :=
  let pj :=
    match assocGet parsed_json "content" with
    | Option.none => assocSet parsed_json "content" (PyValue.str fallback_content)
    | Option.some v => assocSet parsed_json "content" (PyValue.str (_ensure_string_content v))
  let md :=
    match assocGet pj "metadata" with
    | Option.some (PyValue.dict m) => m
    | _ => []
  let md := assocSetdefault md "userstory" (PyValue.bool false)
  let md := assocSetdefault md "testcase" (PyValue.bool false)
  let md := assocSetdefault md "devtask" (PyValue.bool false)
  let md := assocSetdefault md "needs_clarification" (PyValue.bool false)
  let md := assocSetdefault md "needs_save_confirmation" (PyValue.bool false)
  assocSet pj "metadata" (PyValue.dict md)

/-- Tokens of the classification regexes: a literal, `.*` or `.+?`
(both restricted to non-newline characters — these patterns run without
DOTALL). -/
inductive Tok where
  | lit : List Char → Tok
  | star : Tok
  | plus : Tok

/-- Existence-of-match for a token sequence at the current position.
The fuel strictly exceeds `toks.length + s.length`, which bounds the
recursion depth, so it never runs out. -/
def toksMatchAt : Nat → List Tok → List Char → Bool
  | 0, _, _ => false
  | _ + 1, [], _ => true
  | fuel + 1, Tok.lit l :: rest, s =>
    listStartsWith l s && toksMatchAt fuel rest (listDrop l.length s)
  | fuel + 1, Tok.star :: rest, [] => toksMatchAt fuel rest []
  | fuel + 1, Tok.star :: rest, c :: s2 =>
    toksMatchAt fuel rest (c :: s2) || (c != '\n' && toksMatchAt fuel (Tok.star :: rest) s2)
  | _ + 1, Tok.plus :: _, [] => false
  | fuel + 1, Tok.plus :: rest, c :: s2 =>
    c != '\n' && toksMatchAt fuel (Tok.star :: rest) s2

/-- `bool(re.search(...))` for one alternative: try every start position. -/
def searchToksGo (toks : List Tok) : List Char → Bool
  | [] => toksMatchAt (toks.length + 1) toks []
  | c :: rest =>
    toksMatchAt (toks.length + (c :: rest).length + 1) toks (c :: rest) ||
      searchToksGo toks rest

/-- `bool(re.search(alt1|alt2|...))`. -/
def reAny (alts : List (List Tok)) (s : List Char) : Bool :=
  alts.any (fun t => searchToksGo t s)

def userstoryAlts : List (List Tok) :=
  [[Tok.lit "user story".toList],
   [Tok.lit "as a ".toList, Tok.plus, Tok.lit "i want".toList, Tok.plus, Tok.lit "so that".toList],
   [Tok.lit "story".toList, Tok.star, Tok.lit ":".toList]]

def testcaseAlts : List (List Tok) :=
  [[Tok.lit "test case".toList],
   [Tok.lit "test scenario".toList],
   [Tok.lit "given".toList, Tok.plus, Tok.lit "when".toList, Tok.plus, Tok.lit "then".toList],
   [Tok.lit "test".toList, Tok.star, Tok.lit ":".toList]]

def devtaskAlts : List (List Tok) :=
  [[Tok.lit "development task".toList],
   [Tok.lit "dev task".toList],
   [Tok.lit "task".toList, Tok.star, Tok.lit ":".toList],
   [Tok.lit "implementation".toList],
   [Tok.lit "work item".toList, Tok.star, Tok.lit "created".toList],
   [Tok.lit "task".toList, Tok.star, Tok.lit "title".toList]]

def clarificationAlts : List (List Tok) :=
  [[Tok.lit "need".toList, Tok.star, Tok.lit "more".toList, Tok.star, Tok.lit "info".toList],
   [Tok.lit "clarification".toList],
   [Tok.lit "missing".toList, Tok.star, Tok.lit "detail".toList],
   [Tok.lit "please".toList, Tok.star, Tok.lit "provide".toList]]

def saveConfirmationAlts : List (List Tok) :=
  [[Tok.lit "save".toList, Tok.star, Tok.lit "azure".toList],
   [Tok.lit "create".toList, Tok.star, Tok.lit "work".toList, Tok.star, Tok.lit "item".toList],
   [Tok.lit "add".toList, Tok.star, Tok.lit "to".toList, Tok.star, Tok.lit "board".toList]]

/-- `AgentService._fallback_content_analysis` (agents.py:616-647):
independent case-insensitive pattern tests for the five metadata flags,
with `content` set to the full text.  (The `except` branch that returns
the all-`false` envelope cannot fire in the pure model.) -/
def _fallback_content_analysis (content : String) : List (String × PyValue) :=
  let low := (pyLower content).toList
  [("content", PyValue.str content),
   ("metadata", PyValue.dict
     [("userstory", PyValue.bool (reAny userstoryAlts low)),
      ("testcase", PyValue.bool (reAny testcaseAlts low)),
      ("devtask", PyValue.bool (reAny devtaskAlts low)),
      ("needs_clarification", PyValue.bool (reAny clarificationAlts low)),
      ("needs_save_confirmation", PyValue.bool (reAny saveConfirmationAlts low))])]

/-- `AgentService._parse_response` (agents.py:482-497): stringify, try the
JSON extraction pipeline (an extracted *empty* dict is falsy in Python and
also falls back), validate/normalize, else fallback content analysis. -/
def _parse_response (content : PyValue) : List (String × PyValue) :=
  let processed := _ensure_string_content content
  match _try_parse_json processed with
  | Option.some d =>
    if d.isEmpty then _fallback_content_analysis processed
    else _validate_and_normalize_json d processed
  | Option.none => _fallback_content_analysis processed

/-- A message role of the conversation transcript.  The chat-history
container is the external library's `ChatHistory`; its `AuthorRole` is a
plain `(str, Enum)` mixin: a member's `.value` is the lowercase role name,
while `str()` of a member — the class has no `__str__` override — is the
default enum rendering `AuthorRole.SYSTEM` / `AuthorRole.USER` /
`AuthorRole.ASSISTANT`. -/
inductive Role where
  | system : Role
  | user : Role
  | assistant : Role
deriving DecidableEq

/-- `str(message.role)`: the default rendering of an `AuthorRole` member,
enum class name included. -/
def roleStr : Role → String
  | Role.system => "AuthorRole.SYSTEM"
  | Role.user => "AuthorRole.USER"
  | Role.assistant => "AuthorRole.ASSISTANT"

/-- `message.role.value`: the lowercase role name. -/
def roleValue : Role → String
  | Role.system => "system"
  | Role.user => "user"
  | Role.assistant => "assistant"

/-- One transcript message (role + textual content). -/
structure Message where
  role : Role
  content : String
deriving DecidableEq

/-- One serialized message record, as built by
`AgentService.save_chat_history` (agents.py:656-662): role and content
stringified, timestamp taken by `getattr(message, 'timestamp', None)` —
always `None` for these messages. -/
structure ChatRecord where
  role : String
  content : String
  timestamp : Option Nat
deriving DecidableEq

/-- The persisted chat document (blob_storage_service.py:87-92):
`datetime.now().isoformat()` is modelled as a logical clock value (ISO
timestamps compare like the clock). -/
structure ChatDocument where
  session_id : String
  timestamp : Nat
  message_count : Nat
  chat_history : List ChatRecord
deriving DecidableEq

/-- A stored blob: the JSON round-trip through the wire
(`json.dumps`/`json.loads` of the document) is modelled as the identity,
so the blob holds the document plus its Azure `last_modified` marker. -/
structure StoredBlob where
  doc : ChatDocument
  last_modified : Nat
deriving DecidableEq

/-- One entry of `list_chat_sessions` (blob_storage_service.py:169-174).
`size` is the blob byte size, which no callee inspects; it is modelled
as 0. -/
structure SessionInfo where
  blob_name : String
  session_id : String
  last_modified : Nat
  size : Nat
deriving DecidableEq

def strEndsWith (s suffix : String) : Bool :=
  listStartsWith suffix.toList.reverse s.toList.reverse

/-- Stable insertion (newest first, ties keep original order) for the
`sessions.sort(key=..., reverse=True)` call. -/
def insertLM (x : SessionInfo) : List SessionInfo → List SessionInfo
  | [] => [x]
  | y :: ys => if y.last_modified > x.last_modified then y :: insertLM x ys else x :: y :: ys

def sortLM : List SessionInfo → List SessionInfo
  | [] => []
  | x :: xs => insertLM x (sortLM xs)

/-- Python `max(sessions, key=lambda x: x.get('last_modified', ''))`:
the first element with the greatest key. -/
def maxByLM (best : SessionInfo) : List SessionInfo → SessionInfo
  | [] => best
  | x :: xs => maxByLM (if x.last_modified > best.last_modified then x else best) xs

namespace ChatStorageService

/-- `ChatStorageService.save_chat_history`
(blob_storage_service.py:65-114): derive the blob name
`{session_id}.json` (timestamped fallback when no id is given — Python
tests falsiness, so the empty string also falls back), build the document
with save timestamp and message count, and upload with `overwrite=True`
(an existing blob of the same name is replaced).  Returns the new store
and the blob name. -/
def save_chat_history (store : List (String × StoredBlob)) (chat_data : List ChatRecord)
    (session_id : Option String) (now : Nat) : List (String × StoredBlob) × String :=
  let sid :=
    match session_id with
    | Option.some s => if s = "" then "chat_session_" ++ toString now else s
    | Option.none => "chat_session_" ++ toString now
  let blob_name := sid ++ ".json"
  let doc : ChatDocument := ⟨sid, now, chat_data.length, chat_data⟩
  (assocSet store blob_name ⟨doc, now⟩, blob_name)

/-- `ChatStorageService.load_chat_history`
(blob_storage_service.py:116-147): download and parse a blob, `None` when
the blob does not exist. -/
def load_chat_history (store : List (String × StoredBlob)) (blob_name : String) :
    Option ChatDocument :=
  (assocGet store blob_name).map (fun b => b.doc)

/-- `ChatStorageService.list_chat_sessions`
(blob_storage_service.py:149-184): collect up to 50 `.json` blobs (the
Azure listing is modelled in store order; the cap only matters beyond 50
sessions), then sort newest-first. -/
def list_chat_sessions (store : List (String × StoredBlob)) : List SessionInfo :=
  sortLM (((store.filter (fun p => strEndsWith p.fst ".json")).take 50).map
    (fun p => ⟨p.fst, pyReplace p.fst ".json" "", p.snd.last_modified, 0⟩))

/-- `ChatStorageService.delete_chat_session`
(blob_storage_service.py:186-211): delete a blob, reporting whether it
existed. -/
def delete_chat_session (store : List (String × StoredBlob)) (blob_name : String) :
    List (String × StoredBlob) × Bool :=
  match assocGet store blob_name with
  | Option.some _ => (store.filter (fun p => p.fst != blob_name), true)
  | Option.none => (store, false)

end ChatStorageService

/-- The session manager's mutable state: the active transcript and session
id (fields of `AgentService`), the blob container, and a logical clock
standing in for `datetime.now()`. -/
structure AgentState where
  conversation : List Message
  current_session_id : String
  store : List (String × StoredBlob)
  clock : Nat
deriving DecidableEq

namespace AgentService

/-- The orchestration policy system prompt seeded by `initialize()`
(agents.py:329-393).  The multi-page prompt text is abbreviated: no
property depends on its wording, only on its presence and role. -/
def orchestratorPromptInit : String :=
  "You are the **Orchestrator AI Assistant** [initialize variant of the orchestration policy prompt]"

/-- The system prompt reseeded by `create_new_session` (agents.py:717-781),
a near-identical copy of the initialize prompt. -/
def orchestratorPromptCreate : String :=
  "You are the **Orchestrator AI Assistant** [create_new_session variant of the orchestration policy prompt]"

/-- The system prompt reseeded by the implicit-create branch of
`switch_session` (agents.py:820-883). -/
def orchestratorPromptSwitch : String :=
  "You are the **Orchestrator AI Assistant** [switch_session variant of the orchestration policy prompt]"

/-- The serialization loop of `AgentService.save_chat_history`
(agents.py:656-662). -/
def serializeConversation (msgs : List Message) : List ChatRecord :=
  msgs.map (fun m => ⟨roleStr m.role, m.content, Option.none⟩)

/-- `AgentService.save_chat_history` (agents.py:649-669): serialize the
active transcript and store it under the current session id.  Each save
advances the clock so successive snapshots carry increasing timestamps. -/
def save_chat_history (st : AgentState) : AgentState × String :=
  let r := ChatStorageService.save_chat_history st.store
    (serializeConversation st.conversation) (Option.some st.current_session_id) st.clock
  ({ st with store := r.fst, clock := st.clock + 1 }, r.snd)

/-- `AgentService.has_user_messages` (agents.py:912-922): does the
transcript hold any non-system message?  `getattr(msg.role, 'value',
str(msg.role))` picks the role's `.value` (every `AuthorRole` member has
one), so the comparison is against the lowercase role name. -/
def has_user_messages (st : AgentState) : Bool :=
  st.conversation.any (fun m => pyLower (roleValue m.role) != "system")

/-- The replay loop shared by `switch_session` (agents.py:891-900) and
`_load_most_recent_session` (agents.py:957-969): each stored record is
appended through the role-appropriate add-message operation; records with
any other role are skipped. -/
def replayMessages (h : List ChatRecord) : List Message :=
  h.filterMap (fun r =>
    match pyLower r.role with
    | "system" => Option.some ⟨Role.system, r.content⟩
    | "user" => Option.some ⟨Role.user, r.content⟩
    | "assistant" => Option.some ⟨Role.assistant, r.content⟩
    | _ => Option.none)

/-- The save-if-nonempty step at the top of `create_new_session`
(agents.py:710-712), named so the persisted-before-replacement property
can talk about the intermediate state. -/
def create_new_session_presave (st : AgentState) : AgentState :=
  if has_user_messages st then (save_chat_history st).fst else st

/-- `AgentService.create_new_session` (agents.py:701-795): persist the
active transcript when it has non-system messages, derive the session id
from the name (default: a timestamp label, modelled by the clock) with
spaces and slashes replaced by underscores, reseed a fresh transcript with
the system prompt, and immediately checkpoint the new session. -/
def create_new_session (st : AgentState) (session_name : Option String) :
    AgentState × String :=
  let name :=
    match session_name with
    | Option.some n => if n = "" then "Chat " ++ toString st.clock else n
    | Option.none => "Chat " ++ toString st.clock
  let st1 := create_new_session_presave st
  let newId := pyReplace (pyReplace name " " "_") "/" "_"
  let st2 := { st1 with current_session_id := newId,
                        conversation := [⟨Role.system, orchestratorPromptCreate⟩] }
  let st3 := (save_chat_history st2).fst
  (st3, newId)

/-- The save-if-nonempty step at the top of `switch_session`
(agents.py:801-803), the same guard as in `create_new_session`. -/
def switch_presave (st : AgentState) : AgentState :=
  if has_user_messages st then (save_chat_history st).fst else st

/-- `AgentService.switch_session` (agents.py:797-910): persist the active
transcript if non-empty; find the most-recently-saved blob whose name
contains the id (the listing is already newest-first); if none exists,
implicitly create a fresh session under the id and report success; else
replay the stored messages in order.  A missing blob at load time reports
failure with the state otherwise unchanged. -/
def switch_session (st : AgentState) (session_id : String) : AgentState × Bool :=
  let st1 := switch_presave st
  let sessions := ChatStorageService.list_chat_sessions st1.store
  match sessions.find? (fun s => strContainsSub s.blob_name session_id) with
  | Option.none =>
    ({ st1 with current_session_id := session_id,
                conversation := [⟨Role.system, orchestratorPromptSwitch⟩] }, true)
  | Option.some sess =>
    match ChatStorageService.load_chat_history st1.store sess.blob_name with
    | Option.some doc =>
      ({ st1 with conversation := replayMessages doc.chat_history,
                  current_session_id := session_id }, true)
    | Option.none => (st1, false)

/-- The session-id recovery of `_load_most_recent_session`
(agents.py:944-946): strip the `chat_session_` prefix and `.json` suffix,
split on underscores, and drop what is assumed to be a trailing
timestamp pair. -/
def deriveSessionId (blob_name : String) : String :=
  let s := pyReplace (pyReplace blob_name "chat_session_" "") ".json" ""
  let parts := pySplit s "_"
  if parts.length > 2 then pyJoin "_" (parts.take (parts.length - 2))
  else parts.headD ""

/-- `AgentService._load_most_recent_session` (agents.py:924-981): pick the
listing entry with the greatest last-modified marker, re-derive and assign
the session id, then load and replay the snapshot; the default transcript
is kept whenever the load yields no messages. -/
def load_most_recent_session (st : AgentState) : AgentState :=
  match ChatStorageService.list_chat_sessions st.store with
  | [] => st
  | s0 :: rest =>
    let most_recent := maxByLM s0 rest
    let blob_name := most_recent.blob_name
    let sid := deriveSessionId blob_name
    let st1 := { st with current_session_id := sid }
    match ChatStorageService.load_chat_history st.store blob_name with
    | Option.none => st1
    | Option.some doc =>
      if doc.chat_history.isEmpty then st1
      else
        let loaded := replayMessages doc.chat_history
        if loaded.isEmpty then st1
        else { st1 with conversation := loaded }

/-- `AgentService.initialize` (agents.py:264-409) restricted to the
session state it owns: seed a fresh transcript with the system policy
message and the default id `main_session`, then restore the most recent
persisted session. -/
def init_service (store : List (String × StoredBlob)) (clock : Nat) : AgentState :=
  load_most_recent_session ⟨[⟨Role.system, orchestratorPromptInit⟩], "main_session", store, clock⟩

/-- `AgentService.process_query` (agents.py:411-480): append the user
message, checkpoint, invoke the external model (its raw reply is the
universally-quantified `rawReply`), append the stringified reply as an
assistant message, checkpoint again, and return the normalized envelope. -/
def process_query (st : AgentState) (query : String) (rawReply : PyValue) :
    AgentState × List (String × PyValue) :=
  let st1 := { st with conversation := st.conversation ++ [⟨Role.user, query⟩] }
  let st2 := (save_chat_history st1).fst
  let response_content := _ensure_string_content rawReply
  let st3 := { st2 with conversation := st2.conversation ++ [⟨Role.assistant, response_content⟩] }
  let st4 := (save_chat_history st3).fst
  (st4, _parse_response (PyValue.str response_content))

end AgentService

/-- The states the session manager can reach: boot from an empty store,
then any interleaving of queries (with arbitrary model replies), session
creation, switching, manual checkpoints, and process restarts (which
re-run initialization against the surviving store). -/
inductive Reachable : AgentState → Prop where
  | boot : Reachable (AgentService.init_service [] 0)
  | query (st : AgentState) (q : String) (r : PyValue) :
      Reachable st → Reachable (AgentService.process_query st q r).fst
  | create (st : AgentState) (name : Option String) :
      Reachable st → Reachable (AgentService.create_new_session st name).fst
  | switch (st : AgentState) (sid : String) :
      Reachable st → Reachable (AgentService.switch_session st sid).fst
  | checkpoint (st : AgentState) :
      Reachable st → Reachable (AgentService.save_chat_history st).fst
  | restart (st : AgentState) :
      Reachable st → Reachable (AgentService.init_service st.store st.clock)

/-- The transcript-shape invariant of the spec: the transcript begins with
exactly one system message (a system head, not immediately followed by
another system message). -/
def startsWithExactlyOneSystem : List Message → Bool
  | [] => false
  | m :: rest =>
    m.role == Role.system &&
      (match rest with
      | [] => true
      | m2 :: _ => !(m2.role == Role.system))

/-- The metadata dict of an envelope (empty when absent or not a dict). -/
def envelopeMetadata (env : List (String × PyValue)) : List (String × PyValue) :=
  match assocGet env "metadata" with
  | Option.some (PyValue.dict m) => m
  | _ => []

/-- Is this lookup result a boolean value? -/
def isBoolOpt : Option PyValue → Bool
  | Option.some (PyValue.bool _) => true
  | _ => false

theorem assocGet_append {α : Type} (l1 l2 : List (String × α)) (k : String) :
    assocGet (l1 ++ l2) k =
      (match assocGet l1 k with
      | Option.some v => Option.some v
      | Option.none => assocGet l2 k) := by
  induction l1 with
  | nil => simp [assocGet]
  | cons p rest ih =>
    obtain ⟨k', v'⟩ := p
    by_cases h : k' = k
    · simp [assocGet, h]
    · simp [assocGet, h, ih]

theorem assocGet_assocSet_self {α : Type} (l : List (String × α)) (k : String) (v : α) :
    assocGet (assocSet l k v) k = Option.some v := by
  induction l with
  | nil => simp [assocSet, assocGet]
  | cons p rest ih =>
    obtain ⟨k', v'⟩ := p
    by_cases h : k' = k
    · simp [assocSet, h, assocGet]
    · simp [assocSet, h, assocGet, ih]

theorem assocGet_assocSet_ne {α : Type} (l : List (String × α)) (k k' : String) (v : α)
    (h : k' ≠ k) : assocGet (assocSet l k' v) k = assocGet l k := by
  induction l with
  | nil => simp [assocSet, assocGet, h]
  | cons p rest ih =>
    obtain ⟨k2, v2⟩ := p
    by_cases h2 : k2 = k'
    · simp [assocSet, h2, assocGet, h]
    · simp [assocSet, h2, assocGet, ih]

theorem mem_assocSet {α : Type} (l : List (String × α)) (k : String) (v : α)
    (x : String × α) (h : x ∈ assocSet l k v) : x ∈ l ∨ x = (k, v) := by
  induction l with
  | nil => simp [assocSet] at h; exact Or.inr h
  | cons p rest ih =>
    obtain ⟨k', v'⟩ := p
    by_cases h2 : k' = k
    · simp [assocSet, h2] at h
      rcases h with h | h
      · exact Or.inr h
      · exact Or.inl (List.mem_cons_of_mem _ h)
    · simp [assocSet, h2] at h
      rcases h with h | h
      · exact Or.inl (by simp [h])
      · rcases ih h with h3 | h3
        · exact Or.inl (List.mem_cons_of_mem _ h3)
        · exact Or.inr h3

theorem assocSetdefault_isSome_self {α : Type} (l : List (String × α)) (k : String)
    (d : α) : (assocGet (assocSetdefault l k d) k).isSome = true := by
  unfold assocSetdefault
  cases h : assocGet l k with
  | some v => simp [h]
  | none => rw [assocGet_append]; simp [h, assocGet]

theorem assocSetdefault_isSome_mono {α : Type} (l : List (String × α)) (k k' : String)
    (d : α) (h : (assocGet l k).isSome = true) :
    (assocGet (assocSetdefault l k' d) k).isSome = true := by
  unfold assocSetdefault
  cases h2 : assocGet l k' with
  | some v => exact h
  | none =>
    rw [assocGet_append]
    cases h3 : assocGet l k with
    | some v => simp
    | none => rw [h3] at h; simp at h

theorem mem_insertLM (x y : SessionInfo) (l : List SessionInfo)
    (h : y ∈ insertLM x l) : y = x ∨ y ∈ l := by
  induction l with
  | nil => simp [insertLM] at h; exact Or.inl h
  | cons z zs ih =>
    by_cases h2 : z.last_modified > x.last_modified
    · simp [insertLM, h2] at h
      rcases h with h | h
      · exact Or.inr (by simp [h])
      · rcases ih h with h3 | h3
        · exact Or.inl h3
        · exact Or.inr (List.mem_cons_of_mem _ h3)
    · simp [insertLM, h2] at h
      rcases h with h | h | h
      · exact Or.inl h
      · exact Or.inr (by simp [h])
      · exact Or.inr (List.mem_cons_of_mem _ h)

theorem mem_sortLM (y : SessionInfo) (l : List SessionInfo) (h : y ∈ sortLM l) :
    y ∈ l := by
  induction l with
  | nil => simp [sortLM] at h
  | cons x xs ih =>
    rcases mem_insertLM x y (sortLM xs) (by simpa [sortLM] using h) with h2 | h2
    · simp [h2]
    · exact List.mem_cons_of_mem _ (ih h2)

theorem list_chat_sessions_mem (store : List (String × StoredBlob)) (s : SessionInfo)
    (h : s ∈ ChatStorageService.list_chat_sessions store) :
    ∃ b : StoredBlob, (s.blob_name, b) ∈ store := by
  have h2 := mem_sortLM _ _ h
  rcases List.mem_map.mp h2 with ⟨p, hp, hs⟩
  have hp2 : p ∈ store.filter (fun q => strEndsWith q.fst ".json") :=
    List.take_subset _ _ hp
  have hp3 : p ∈ store := List.mem_of_mem_filter hp2
  refine ⟨p.snd, ?_⟩
  have hb : s.blob_name = p.fst := by rw [← hs]
  rw [hb]
  exact hp3

/-- Unfolded form of `switch_session`. -/
theorem switch_session_eq (st : AgentState) (sid : String) :
    AgentService.switch_session st sid =
      (match (ChatStorageService.list_chat_sessions (AgentService.switch_presave st).store).find?
          (fun s => strContainsSub s.blob_name sid) with
      | Option.none =>
        ({ (AgentService.switch_presave st) with
            current_session_id := sid
            conversation := [⟨Role.system, AgentService.orchestratorPromptSwitch⟩] }, true)
      | Option.some sess =>
        (match ChatStorageService.load_chat_history (AgentService.switch_presave st).store
            sess.blob_name with
        | Option.some doc =>
          ({ (AgentService.switch_presave st) with
              conversation := AgentService.replayMessages doc.chat_history
              current_session_id := sid }, true)
        | Option.none => (AgentService.switch_presave st, false))) := rfl

/-- Unfolded form of `_load_most_recent_session` when the listing is
nonempty. -/
theorem load_most_recent_session_cons (st : AgentState) (s0 : SessionInfo)
    (rest : List SessionInfo)
    (hl : ChatStorageService.list_chat_sessions st.store = s0 :: rest) :
    AgentService.load_most_recent_session st =
      (match ChatStorageService.load_chat_history st.store (maxByLM s0 rest).blob_name with
      | Option.none =>
        { st with current_session_id := AgentService.deriveSessionId (maxByLM s0 rest).blob_name }
      | Option.some doc =>
        if doc.chat_history.isEmpty then
          { st with current_session_id := AgentService.deriveSessionId (maxByLM s0 rest).blob_name }
        else if (AgentService.replayMessages doc.chat_history).isEmpty then
          { st with current_session_id := AgentService.deriveSessionId (maxByLM s0 rest).blob_name }
        else
          { st with current_session_id := AgentService.deriveSessionId (maxByLM s0 rest).blob_name,
                    conversation := AgentService.replayMessages doc.chat_history }) := by
  unfold AgentService.load_most_recent_session
  rw [hl]

/-- The role strings written by the serialization loop
(`str(message.role)` = `"AuthorRole.SYSTEM"`, `"AuthorRole.USER"`,
`"AuthorRole.ASSISTANT"`) are never matched by the replay loop's
lowercase comparisons against `"system"` / `"user"` / `"assistant"`, so
replaying any serialized transcript yields no messages at all. -/
theorem replayMessages_serialize_nil (msgs : List Message) :
    AgentService.replayMessages (AgentService.serializeConversation msgs) = [] := by
  induction msgs with
  | nil => rfl
  | cons m rest ih =>
    obtain ⟨role, content⟩ := m
    cases role
    · show AgentService.replayMessages (AgentService.serializeConversation rest) = []
      exact ih
    · show AgentService.replayMessages (AgentService.serializeConversation rest) = []
      exact ih
    · show AgentService.replayMessages (AgentService.serializeConversation rest) = []
      exact ih

theorem parse_response_cases (v : PyValue) :
    _parse_response v = _fallback_content_analysis (_ensure_string_content v) ∨
    (∃ d : List (String × PyValue), d ≠ [] ∧
      _parse_response v = _validate_and_normalize_json d (_ensure_string_content v)) := by
  cases ht : _try_parse_json (_ensure_string_content v) with
  | none =>
    left
    simp only [_parse_response]
    rw [ht]
  | some d =>
    cases d with
    | nil =>
      left
      simp only [_parse_response]
      rw [ht]
      rfl
    | cons p rest =>
      right
      refine ⟨p :: rest, by simp, ?_⟩
      simp only [_parse_response]
      rw [ht]
      rfl

theorem validate_meta (d : List (String × PyValue)) (s : String) :
    ∃ m : List (String × PyValue),
      assocGet (_validate_and_normalize_json d s) "metadata" = Option.some (PyValue.dict m) ∧
      (assocGet m "userstory").isSome = true ∧
      (assocGet m "testcase").isSome = true ∧
      (assocGet m "devtask").isSome = true ∧
      (assocGet m "needs_clarification").isSome = true ∧
      (assocGet m "needs_save_confirmation").isSome = true := by
  simp only [_validate_and_normalize_json]
  refine ⟨_, assocGet_assocSet_self _ _ _, ?_, ?_, ?_, ?_, ?_⟩
  · exact assocSetdefault_isSome_mono _ _ _ _ (assocSetdefault_isSome_mono _ _ _ _
      (assocSetdefault_isSome_mono _ _ _ _ (assocSetdefault_isSome_mono _ _ _ _
        (assocSetdefault_isSome_self _ _ _))))
  · exact assocSetdefault_isSome_mono _ _ _ _ (assocSetdefault_isSome_mono _ _ _ _
      (assocSetdefault_isSome_mono _ _ _ _ (assocSetdefault_isSome_self _ _ _)))
  · exact assocSetdefault_isSome_mono _ _ _ _ (assocSetdefault_isSome_mono _ _ _ _
      (assocSetdefault_isSome_self _ _ _))
  · exact assocSetdefault_isSome_mono _ _ _ _ (assocSetdefault_isSome_self _ _ _)
  · exact assocSetdefault_isSome_self _ _ _

theorem validate_envelope (d : List (String × PyValue)) (s : String) :
    ∃ (c : String) (m : List (String × PyValue)),
      assocGet (_validate_and_normalize_json d s) "content" = Option.some (PyValue.str c) ∧
      assocGet (_validate_and_normalize_json d s) "metadata" = Option.some (PyValue.dict m) := by
  simp only [_validate_and_normalize_json]
  cases hc : assocGet d "content" with
  | none =>
    refine ⟨s, _, ?_, assocGet_assocSet_self _ _ _⟩
    rw [assocGet_assocSet_ne _ _ _ _ (by decide)]
    exact assocGet_assocSet_self _ _ _
  | some cv =>
    refine ⟨_ensure_string_content cv, _, ?_, assocGet_assocSet_self _ _ _⟩
    rw [assocGet_assocSet_ne _ _ _ _ (by decide)]
    exact assocGet_assocSet_self _ _ _

/-- C1 (amended): for every raw model reply — of any shape — the envelope
returned by `_parse_response` has a `metadata` dict that contains the five
fixed keys `userstory`, `testcase`, `devtask`, `needs_clarification`,
`needs_save_confirmation` (keys absent from an extracted JSON object are
defaulted to `false`); and whenever the reply yields no extracted JSON,
the fallback metadata consists of exactly these five keys, each bound to a
boolean.  (The claim's stronger form — exactly five keys, always boolean —
fails because values supplied inside extracted JSON are kept as-is; see
the counterexample.) -/
theorem C1_metadata_five_keys :
    (∀ v : PyValue, ∃ m : List (String × PyValue),
      assocGet (_parse_response v) "metadata" = Option.some (PyValue.dict m) ∧
      (assocGet m "userstory").isSome = true ∧
      (assocGet m "testcase").isSome = true ∧
      (assocGet m "devtask").isSome = true ∧
      (assocGet m "needs_clarification").isSome = true ∧
      (assocGet m "needs_save_confirmation").isSome = true) ∧
    (∀ s : String, ∃ b1 b2 b3 b4 b5 : Bool,
      _fallback_content_analysis s =
        [("content", PyValue.str s),
         ("metadata", PyValue.dict
           [("userstory", PyValue.bool b1), ("testcase", PyValue.bool b2),
            ("devtask", PyValue.bool b3), ("needs_clarification", PyValue.bool b4),
            ("needs_save_confirmation", PyValue.bool b5)])]) := by
  constructor
  · intro v
    rcases parse_response_cases v with heq | ⟨d, _, heq⟩
    · rw [heq]
      exact ⟨_, rfl, rfl, rfl, rfl, rfl, rfl⟩
    · rw [heq]
      exact validate_meta d (_ensure_string_content v)
  · intro s
    exact ⟨_, _, _, _, _, rfl⟩

/-- C1 counterexample: the reply
`{"content": "x", "metadata": {"userstory": 1}}` parses via the
whole-string strategy, and `setdefault` keeps the non-boolean value `1`
under `userstory` in the returned metadata — so the metadata is not a
mapping of five boolean values as the claim states. -/
theorem C1_counterexample :
    assocGet (envelopeMetadata (_parse_response (PyValue.str
        "\x7b\"content\": \"x\", \"metadata\": \x7b\"userstory\": 1\x7d\x7d"))) "userstory"
      = Option.some (PyValue.int 1) ∧
    isBoolOpt (assocGet (envelopeMetadata (_parse_response (PyValue.str
        "\x7b\"content\": \"x\", \"metadata\": \x7b\"userstory\": 1\x7d\x7d"))) "userstory")
      = false :=
  ⟨rfl, rfl⟩

/-- C2: the Response Normalizer is total — for every reply value the pure
function `_parse_response` returns an envelope with a string `content`
field and a dict `metadata` field.  (Exceptions cannot escape: every
fallible step of the source is modelled by the total function it computes;
the final catch-all of the fallback step is unreachable in the pure
embedding.) -/
theorem C2_normalizer_total_envelope (v : PyValue) :
    ∃ (c : String) (m : List (String × PyValue)),
      assocGet (_parse_response v) "content" = Option.some (PyValue.str c) ∧
      assocGet (_parse_response v) "metadata" = Option.some (PyValue.dict m) := by
  rcases parse_response_cases v with heq | ⟨d, _, heq⟩
  · rw [heq]
    exact ⟨_, _, rfl, rfl⟩
  · rw [heq]
    exact validate_envelope d (_ensure_string_content v)

/-- C3 counterexample: saving the same session id twice does *not* yield
two distinct snapshots — the blob name is `{session_id}.json` and the
upload overwrites, so after two saves under `"s"` the store holds exactly
one snapshot, the second one. -/
theorem C3_counterexample :
    (ChatStorageService.save_chat_history
        (ChatStorageService.save_chat_history [] [⟨"system", "p", Option.none⟩]
          (Option.some "s") 0).fst
        [⟨"system", "p", Option.none⟩, ⟨"user", "hi", Option.none⟩]
        (Option.some "s") 1).fst
      = [("s.json",
          ⟨⟨"s", 1, 2, [⟨"system", "p", Option.none⟩, ⟨"user", "hi", Option.none⟩]⟩, 1⟩)] :=
  rfl

/-- C3 (amended): every save call writes the snapshot under the key
`{session_id}.json`, overwriting any prior snapshot under that same key,
and leaves the snapshot under every other key unchanged.  So snapshots of
*other* sessions are never deleted or replaced, but saving the same
session id twice keeps only the latest snapshot rather than two. -/
theorem C3_save_overwrites_only_own_key (store : List (String × StoredBlob))
    (data : List ChatRecord) (sid : String) (now : Nat) (k : String)
    (hsid : sid ≠ "") (hk : k ≠ sid ++ ".json") :
    assocGet (ChatStorageService.save_chat_history store data (Option.some sid) now).fst k
      = assocGet store k ∧
    assocGet (ChatStorageService.save_chat_history store data (Option.some sid) now).fst
        (sid ++ ".json")
      = Option.some ⟨⟨sid, now, data.length, data⟩, now⟩ := by
  simp only [ChatStorageService.save_chat_history]
  rw [if_neg hsid]
  exact ⟨assocGet_assocSet_ne _ _ _ _ (Ne.symm hk), assocGet_assocSet_self _ _ _⟩

theorem C3_save_overwrites_only_own_key_witness :
    assocGet (ChatStorageService.save_chat_history [] [] (Option.some "a") 0).fst "b"
      = assocGet ([] : List (String × StoredBlob)) "b" ∧
    assocGet (ChatStorageService.save_chat_history [] [] (Option.some "a") 0).fst "a.json"
      = Option.some ⟨⟨"a", 0, 0, []⟩, 0⟩ :=
  C3_save_overwrites_only_own_key [] [] "a" 0 "b" (by decide) (by decide)

/-- C4 (code bug): the one-system-message invariant fails in the program.
Booting with an empty store, processing one query (which checkpoints the
transcript under `main_session.json`), and then switching back to
`main_session` is a reachable operation sequence after which the active
transcript is *empty* — it does not begin with a system message — while
`switch_session` still reports success.  The cause: the snapshot stores
each role as `str(message.role)` = `"AuthorRole.SYSTEM"` etc.
(agents.py:659), and the replay of `switch_session` (agents.py:891-900)
lowercases that and compares it to `"system"` / `"user"` /
`"assistant"`, matching nothing, so every stored message is dropped. -/
theorem C4_reachable_empty_transcript :
    Reachable (AgentService.switch_session
        (AgentService.process_query (AgentService.init_service [] 0) "hi"
          (PyValue.str "ok")).fst "main_session").fst ∧
    (AgentService.switch_session
        (AgentService.process_query (AgentService.init_service [] 0) "hi"
          (PyValue.str "ok")).fst "main_session").fst.conversation = [] ∧
    startsWithExactlyOneSystem
      (AgentService.switch_session
        (AgentService.process_query (AgentService.init_service [] 0) "hi"
          (PyValue.str "ok")).fst "main_session").fst.conversation = false ∧
    (AgentService.switch_session
        (AgentService.process_query (AgentService.init_service [] 0) "hi"
          (PyValue.str "ok")).fst "main_session").snd = true :=
  ⟨Reachable.switch _ _ (Reachable.query _ _ _ Reachable.boot), rfl, rfl, rfl⟩

/-- C5 (code bug): the round-trip fails in the program.  Saving the
two-message transcript `[system "p", user "hi"]` and loading the snapshot
under the returned blob name replays to the *empty* message sequence, not
to the original (role, content) pairs: the stored roles are
`"AuthorRole.SYSTEM"` / `"AuthorRole.USER"` (agents.py:659), which the
replay's lowercase comparisons never match.  (The record level does round
trip; every message is lost at the replay step.) -/
theorem C5_roundtrip_lost :
    (ChatStorageService.load_chat_history
        (AgentService.save_chat_history
          ⟨[⟨Role.system, "p"⟩, ⟨Role.user, "hi"⟩], "s", [], 0⟩).fst.store
        (AgentService.save_chat_history
          ⟨[⟨Role.system, "p"⟩, ⟨Role.user, "hi"⟩], "s", [], 0⟩).snd).map
      (fun doc => AgentService.replayMessages doc.chat_history)
      = Option.some [] ∧
    (ChatStorageService.load_chat_history
        (AgentService.save_chat_history
          ⟨[⟨Role.system, "p"⟩, ⟨Role.user, "hi"⟩], "s", [], 0⟩).fst.store
        (AgentService.save_chat_history
          ⟨[⟨Role.system, "p"⟩, ⟨Role.user, "hi"⟩], "s", [], 0⟩).snd).map
      (fun doc => doc.chat_history)
      = Option.some [⟨"AuthorRole.SYSTEM", "p", Option.none⟩,
                     ⟨"AuthorRole.USER", "hi", Option.none⟩] :=
  ⟨rfl, rfl⟩

/-- C6: the fenced reply
``"```json\n{"content":"hi","metadata":{"userstory":true}}\n```"``
normalizes to `content = "hi"` with metadata
`{userstory: true, testcase: false, devtask: false,
needs_clarification: false, needs_save_confirmation: false}`. -/
theorem C6_fenced_json_block :
    assocGet (_parse_response (PyValue.str
        "```json\n\x7b\"content\":\"hi\",\"metadata\":\x7b\"userstory\":true\x7d\x7d\n```"))
      "content" = Option.some (PyValue.str "hi") ∧
    envelopeMetadata (_parse_response (PyValue.str
        "```json\n\x7b\"content\":\"hi\",\"metadata\":\x7b\"userstory\":true\x7d\x7d\n```"))
      = [("userstory", PyValue.bool true), ("testcase", PyValue.bool false),
         ("devtask", PyValue.bool false), ("needs_clarification", PyValue.bool false),
         ("needs_save_confirmation", PyValue.bool false)] :=
  ⟨rfl, rfl⟩

/-- C7: the JSON-free reply
`"As a user, I want to log in so that I can access my account."` goes
through the fallback classifier, which sets `userstory` to true, the other
four flags to false, and `content` to the full reply text. -/
theorem C7_fallback_userstory :
    _parse_response (PyValue.str
        "As a user, I want to log in so that I can access my account.")
      = [("content", PyValue.str
            "As a user, I want to log in so that I can access my account."),
         ("metadata", PyValue.dict
           [("userstory", PyValue.bool true), ("testcase", PyValue.bool false),
            ("devtask", PyValue.bool false), ("needs_clarification", PyValue.bool false),
            ("needs_save_confirmation", PyValue.bool false)])] :=
  rfl

/-- C8: `create_new_session("My Chat")` returns and installs the session
id `"My_Chat"` (spaces and slashes replaced by underscores); and whenever
the transcript has a non-system message at call time, the pre-replacement
save step has already persisted the serialized old transcript under the
old session id before the fresh transcript is installed. -/
theorem C8_create_new_session (st : AgentState)
    (hU : AgentService.has_user_messages st = true)
    (hid : st.current_session_id ≠ "") :
    (AgentService.create_new_session st (Option.some "My Chat")).snd = "My_Chat" ∧
    (AgentService.create_new_session st (Option.some "My Chat")).fst.current_session_id
      = "My_Chat" ∧
    assocGet (AgentService.create_new_session_presave st).store
        (st.current_session_id ++ ".json")
      = Option.some ⟨⟨st.current_session_id, st.clock,
          (AgentService.serializeConversation st.conversation).length,
          AgentService.serializeConversation st.conversation⟩, st.clock⟩ := by
  refine ⟨rfl, rfl, ?_⟩
  unfold AgentService.create_new_session_presave
  rw [if_pos hU]
  simp only [AgentService.save_chat_history, ChatStorageService.save_chat_history]
  rw [if_neg hid]
  exact assocGet_assocSet_self _ _ _

theorem C8_create_new_session_witness :
    (AgentService.create_new_session
        ⟨[⟨Role.system, "p"⟩, ⟨Role.user, "q"⟩], "sess", [], 7⟩
        (Option.some "My Chat")).snd = "My_Chat" ∧
    (AgentService.create_new_session
        ⟨[⟨Role.system, "p"⟩, ⟨Role.user, "q"⟩], "sess", [], 7⟩
        (Option.some "My Chat")).fst.current_session_id = "My_Chat" ∧
    assocGet (AgentService.create_new_session_presave
        ⟨[⟨Role.system, "p"⟩, ⟨Role.user, "q"⟩], "sess", [], 7⟩).store ("sess" ++ ".json")
      = Option.some ⟨⟨"sess", 7,
          (AgentService.serializeConversation [⟨Role.system, "p"⟩, ⟨Role.user, "q"⟩]).length,
          AgentService.serializeConversation [⟨Role.system, "p"⟩, ⟨Role.user, "q"⟩]⟩, 7⟩ :=
  C8_create_new_session ⟨[⟨Role.system, "p"⟩, ⟨Role.user, "q"⟩], "sess", [], 7⟩
    (by decide) (by decide)

/-- C9: when no persisted snapshot's storage key contains the requested
id (including the key the call itself may have just saved the active
transcript under), `switch_session` performs an implicit create: it
replaces the transcript with a fresh one headed by the system prompt,
installs the id, and returns success. -/
theorem C9_switch_missing_session_creates (st : AgentState) (sid : String)
    (h1 : ∀ p ∈ st.store, strContainsSub p.fst sid = false)
    (h2 : strContainsSub (st.current_session_id ++ ".json") sid = false)
    (hid : st.current_session_id ≠ "") :
    (AgentService.switch_session st sid).snd = true ∧
    (AgentService.switch_session st sid).fst.current_session_id = sid ∧
    (AgentService.switch_session st sid).fst.conversation
      = [⟨Role.system, AgentService.orchestratorPromptSwitch⟩] := by
  have hstore : ∀ p ∈ (AgentService.switch_presave st).store,
      strContainsSub p.fst sid = false := by
    intro p hp
    unfold AgentService.switch_presave at hp
    by_cases hu : AgentService.has_user_messages st
    · rw [if_pos hu] at hp
      simp only [AgentService.save_chat_history, ChatStorageService.save_chat_history] at hp
      rw [if_neg hid] at hp
      rcases mem_assocSet _ _ _ _ hp with hmem | hmem
      · exact h1 p hmem
      · rw [hmem]
        exact h2
    · rw [if_neg hu] at hp
      exact h1 p hp
  have hfind : (ChatStorageService.list_chat_sessions
        (AgentService.switch_presave st).store).find?
      (fun s => strContainsSub s.blob_name sid) = Option.none := by
    rw [List.find?_eq_none]
    intro x hx
    rcases list_chat_sessions_mem _ _ hx with ⟨b, hb⟩
    have h3 := hstore (x.blob_name, b) hb
    simp [h3]
  rw [switch_session_eq, hfind]
  exact ⟨rfl, rfl, rfl⟩

theorem C9_switch_missing_session_creates_witness :
    (AgentService.switch_session ⟨[⟨Role.system, "p"⟩], "main", [], 3⟩ "nonexistent").snd
      = true ∧
    (AgentService.switch_session ⟨[⟨Role.system, "p"⟩], "main", [], 3⟩
        "nonexistent").fst.current_session_id = "nonexistent" ∧
    (AgentService.switch_session ⟨[⟨Role.system, "p"⟩], "main", [], 3⟩
        "nonexistent").fst.conversation
      = [⟨Role.system, AgentService.orchestratorPromptSwitch⟩] :=
  C9_switch_missing_session_creates ⟨[⟨Role.system, "p"⟩], "main", [], 3⟩ "nonexistent"
    (fun p hp => absurd hp (List.not_mem_nil p)) (by decide) (by decide)

/-- C10: during restore-most-recent, the active session id is re-derived
from the most-recent snapshot's storage key and assigned before the
snapshot is loaded; so when the load fails or replays to zero messages,
the default transcript is kept unchanged while the session id has already
changed to the derived id (under which a later checkpoint would save). -/
theorem C10_restore_assigns_id_before_load (st : AgentState) (s0 : SessionInfo)
    (rest : List SessionInfo)
    (hl : ChatStorageService.list_chat_sessions st.store = s0 :: rest)
    (hload : ∀ doc : ChatDocument,
      ChatStorageService.load_chat_history st.store (maxByLM s0 rest).blob_name
        = Option.some doc →
      (AgentService.replayMessages doc.chat_history).isEmpty = true) :
    (AgentService.load_most_recent_session st).conversation = st.conversation ∧
    (AgentService.load_most_recent_session st).current_session_id
      = AgentService.deriveSessionId (maxByLM s0 rest).blob_name := by
  rw [load_most_recent_session_cons st s0 rest hl]
  cases hld : ChatStorageService.load_chat_history st.store (maxByLM s0 rest).blob_name with
  | none => exact ⟨rfl, rfl⟩
  | some doc =>
    have hrep := hload doc hld
    show ((if doc.chat_history.isEmpty then
        { st with current_session_id := AgentService.deriveSessionId (maxByLM s0 rest).blob_name }
      else if (AgentService.replayMessages doc.chat_history).isEmpty then
        { st with current_session_id := AgentService.deriveSessionId (maxByLM s0 rest).blob_name }
      else
        { st with current_session_id := AgentService.deriveSessionId (maxByLM s0 rest).blob_name,
                  conversation := AgentService.replayMessages doc.chat_history }).conversation
          = st.conversation) ∧
      ((if doc.chat_history.isEmpty then
        { st with current_session_id := AgentService.deriveSessionId (maxByLM s0 rest).blob_name }
      else if (AgentService.replayMessages doc.chat_history).isEmpty then
        { st with current_session_id := AgentService.deriveSessionId (maxByLM s0 rest).blob_name }
      else
        { st with current_session_id := AgentService.deriveSessionId (maxByLM s0 rest).blob_name,
                  conversation := AgentService.replayMessages doc.chat_history }).current_session_id
          = AgentService.deriveSessionId (maxByLM s0 rest).blob_name)
    by_cases he : doc.chat_history.isEmpty
    · rw [if_pos he]
      exact ⟨rfl, rfl⟩
    · rw [if_neg he, if_pos hrep]
      exact ⟨rfl, rfl⟩

theorem C10_restore_assigns_id_before_load_witness :
    (AgentService.load_most_recent_session
        ⟨[⟨Role.system, "p"⟩], "main_session",
          [("chat_session_abc.json", ⟨⟨"chat_session_abc", 0, 0, []⟩, 5⟩)], 9⟩).conversation
      = [⟨Role.system, "p"⟩] ∧
    (AgentService.load_most_recent_session
        ⟨[⟨Role.system, "p"⟩], "main_session",
          [("chat_session_abc.json", ⟨⟨"chat_session_abc", 0, 0, []⟩, 5⟩)], 9⟩).current_session_id
      = "abc" := by
  have h := C10_restore_assigns_id_before_load
    ⟨[⟨Role.system, "p"⟩], "main_session",
      [("chat_session_abc.json", ⟨⟨"chat_session_abc", 0, 0, []⟩, 5⟩)], 9⟩
    ⟨"chat_session_abc.json", "chat_session_abc", 5, 0⟩ [] rfl
    (fun doc hd => by
      have hd2 : Option.some (⟨"chat_session_abc", 0, 0, []⟩ : ChatDocument)
          = Option.some doc := hd
      injection hd2 with hd3
      rw [← hd3]
      rfl)
  exact ⟨h.1, h.2⟩
